import Mathlib

/-!
Verification of the IPFS/content-addressed metadata resolution pipeline of the
credential-verification front end.  The embedded functions follow the TypeScript
source: the client page (`fetchIpfs`, `normalize`, `extractIpfsLink`, `getAttr`,
`formatDate`, the credential-status mapping) and the server proxy route
(`normalize`, `buildCandidates`, `fetchWithTimeout`, `GET`).
-/

set_option maxHeartbeats 1000000

namespace SIH

/-- JavaScript/JSON values as seen by the pipeline.  Numbers are modelled as
integers (no claim depends on fractional values or NaN); `undefined` is
modelled as the absence of a key, i.e. `Option.none` at lookup sites. -/
inductive Json where
  | null
  | bool (b : Bool)
  | num (n : Int)
  | str (s : String)
  | arr (xs : List Json)
  | obj (fields : List (String × Json))

/-- JavaScript truthiness of a value (`undefined` is handled at lookup sites):
`null`, `false`, `0` and `""` are falsy; arrays and objects are always truthy. -/
def jsTruthy : Json → Bool
  | .null => false
  | .bool b => b
  | .num n => n != 0
  | .str s => s != ""
  | .arr _ => true
  | .obj _ => true

/-- Property access `v[k]`: `none` models the JavaScript `undefined` result
(missing key, or access on a non-object). -/
def jsGet (v : Json) (k : String) : Option Json :=
  match v with
  | .obj fields => List.lookup k fields
  | _ => none

/-- Property access defaulted to `null`: used where the source only cares about
truthiness, for which `undefined` and `null` coincide. -/
def jsGetD (v : Json) (k : String) : Json :=
  (jsGet v k).getD Json.null

/-- Case-insensitive character comparison, as performed by the `/i` regex flag. -/
def charEqCI (a b : Char) : Bool := a.toLower == b.toLower

/-- `takesPrefixCI s p`: `s` starts with `p`, compared case-insensitively.
Models an anchored case-insensitive regex test such as `/^ipfs:\/\//i`. -/
def takesPrefixCI : List Char → List Char → Bool
  | _, [] => true
  | [], _ :: _ => false
  | c :: cs, p :: ps => charEqCI c p && takesPrefixCI cs ps

/-- String-level wrapper for `takesPrefixCI`. -/
def startsWithCI (s p : String) : Bool := takesPrefixCI s.data p.data

/-- Drop the first `n` characters, as `String.prototype.replace` of an anchored
prefix match of length `n` with the empty string. -/
def dropChars (s : String) (n : Nat) : String := ⟨s.data.drop n⟩

/-- `String.prototype.trim`: remove leading and trailing whitespace. -/
def jsTrim (s : String) : String :=
  ⟨((s.data.dropWhile Char.isWhitespace).reverse.dropWhile Char.isWhitespace).reverse⟩

/-- Case-sensitive `String.prototype.startsWith`. -/
def jsStartsWith (s p : String) : Bool := p.data.isPrefixOf s.data

/-- Split a character list at every occurrence of `c`, keeping empty pieces,
as `String.prototype.split` with a one-character separator. -/
def splitCharList (c : Char) : List Char → List String
  | [] => [""]
  | x :: xs =>
    match splitCharList c xs with
    | h :: t => if x = c then "" :: h :: t else (⟨x :: h.data⟩ : String) :: t
    | [] => [""]

/-- `s.split("/")` from the candidate builders. -/
def jsSplitSlash (s : String) : List String := splitCharList '/' s.data

/-- `parts.join("/")`. -/
def joinWith (sep : String) : List String → String
  | [] => ""
  | [x] => x
  | x :: y :: xs => x ++ sep ++ joinWith sep (y :: xs)

/-- Substring containment `s.includes(p)`, by checking every suffix. -/
def listContainsSub : List Char → List Char → Bool
  | l, p => p.isPrefixOf l ||
    match l with
    | [] => false
    | _ :: xs => listContainsSub xs p

/-- `s.includes(p)` (content-type sniffing in the fetch loops). -/
def jsIncludes (s p : String) : Bool := listContainsSub s.data p.data

/-- The test `/^https?:\/\//i.test(link)`. -/
def isHttpUrl (s : String) : Bool :=
  startsWithCI s "http://" || startsWithCI s "https://"

/-- The prefix-stripping part of `normalize`, applied after trimming
(rules 2..6: Arweave rewrite, http(s) pass-through, IPFS prefix stripping,
empty pass-through).  Each `replace` of an anchored case-insensitive prefix
regex is modelled by a conditional character drop. -/
def normalizeAfterTrim (link : String) : String :=
  if link = "" then ""
  else if startsWithCI link "ar://" then "https://arweave.net/" ++ dropChars link 5
  else if isHttpUrl link then link
  else
    let l1 := if startsWithCI link "ipfs://" then dropChars link 7 else link
    let l2 :=
      if startsWithCI l1 "/ipfs/" then dropChars l1 6
      else if startsWithCI l1 "ipfs/" then dropChars l1 5
      else l1
    if startsWithCI l2 "ipfs/" then dropChars l2 5 else l2

/-- `normalize` from the client page and the proxy route (the two copies are
textually identical).  String inputs are modelled; the non-string coercion
branch only turns other scalars into their string form first. -/
def normalize (s : String) : String := normalizeAfterTrim (jsTrim s)

/-- Does the string begin with a URI scheme prefix, i.e. one or more ASCII
letters followed by `://`?  Used to state the raw-cid invariant of the spec. -/
def hasSchemePrefix (s : String) : Bool :=
  let alpha := s.data.takeWhile Char.isAlpha
  !alpha.isEmpty && "://".data.isPrefixOf (s.data.drop alpha.length)

end SIH

namespace SIH

/-- `buildCandidates` from the proxy route: an http(s) URL is its own single
candidate; otherwise split on `/` into a cid and a path and build the five
path-style gateway URLs followed by the two subdomain-style ones. -/
def buildCandidates (src : String) : List String :=
  if isHttpUrl src then [src]
  else
    let parts := (jsSplitSlash src).filter (fun p => p ≠ "")
    let cid := parts.headD ""
    let rest := parts.tail
    let path := if rest.isEmpty then "" else "/" ++ joinWith "/" rest
    [ "https://cloudflare-ipfs.com/ipfs/" ++ cid ++ path,
      "https://ipfs.io/ipfs/" ++ cid ++ path,
      "https://nftstorage.link/ipfs/" ++ cid ++ path,
      "https://dweb.link/ipfs/" ++ cid ++ path,
      "https://gateway.pinata.cloud/ipfs/" ++ cid ++ path,
      "https://" ++ cid ++ ".ipfs.nftstorage.link" ++ path,
      "https://" ++ cid ++ ".ipfs.dweb.link" ++ path ]

/-- The client-side fallback gateway list built inside `fetchIpfs`
(path-style only, same five hosts, no subdomain style). -/
def clientGatewayUrls (normalized : String) : List String :=
  let parts := (jsSplitSlash normalized).filter (fun p => p ≠ "")
  let cid := parts.headD ""
  let rest := parts.tail
  let path := if rest.isEmpty then "" else "/" ++ joinWith "/" rest
  [ "https://cloudflare-ipfs.com/ipfs/" ++ cid ++ path,
    "https://ipfs.io/ipfs/" ++ cid ++ path,
    "https://nftstorage.link/ipfs/" ++ cid ++ path,
    "https://dweb.link/ipfs/" ++ cid ++ path,
    "https://gateway.pinata.cloud/ipfs/" ++ cid ++ path ]

/-- The `tryUrls` list of the client `fetchIpfs` fallback section. -/
def clientTryUrls (normalized : String) : List String :=
  if isHttpUrl normalized then [normalized] else clientGatewayUrls normalized

/-- Outcome of one `fetch` call, as the environment decides it.
`err` is a rejected promise (network failure, abort).  `resp ok ct json text`
is an HTTP response: `ok` is `r.ok`, `ct` its content type header (absence
modelled as `""`, as both sources default it), `text` the raw body, and `json`
the result of parsing the body as JSON (`none` when parsing throws). -/
inductive NetResult where
  | err
  | resp (ok : Bool) (ct : String) (json : Option Json) (text : String)

/-- Which function issued a request. -/
inductive CallKind where
  | proxy
  | gateway
deriving DecidableEq

/-- One network request as issued by the code: its URL and the abort-timeout
attached to it (`none` when the `fetch` carries no signal or timer). -/
structure Call where
  kind : CallKind
  url : String
  timeoutMs : Option Nat
deriving DecidableEq

/-- Client environment: the proxy response and one response per gateway URL. -/
structure ClientEnv where
  proxy : NetResult
  gw : String → NetResult

/-- The component state touched by `fetchIpfs` (the `useState` cells).
`ipfsResolvedUrl` keeps the stored value (`payload.resolvedUrl || null` may
store any truthy value); `none` is the null state. -/
structure IpfsState where
  ipfsData : Option Json
  ipfsResolvedUrl : Option Json
  ipfsError : Option String
  ipfsLoading : Bool
  ipfsFallbackUrls : List String

/-- The initial state of the client page: every cell null / empty. -/
def initialIpfsState : IpfsState :=
  { ipfsData := none, ipfsResolvedUrl := none, ipfsError := none,
    ipfsLoading := false, ipfsFallbackUrls := [] }

/-- Content-type sniffing shared by both fetch loops:
`ct.includes("application/json") || ct.includes("text/json")`. -/
def isJsonContentType (ct : String) : Bool :=
  jsIncludes ct "application/json" || jsIncludes ct "text/json"

/-- UTF-8 encoding of one character as byte values. -/
def utf8Bytes (c : Char) : List Nat :=
  let n := c.toNat
  if n < 0x80 then [n]
  else if n < 0x800 then [0xC0 + n / 0x40, 0x80 + n % 0x40]
  else if n < 0x10000 then
    [0xE0 + n / 0x1000, 0x80 + (n / 0x40) % 0x40, 0x80 + n % 0x40]
  else
    [0xF0 + n / 0x40000, 0x80 + (n / 0x1000) % 0x40, 0x80 + (n / 0x40) % 0x40,
     0x80 + n % 0x40]

/-- Upper-case hexadecimal digit. -/
def hexDigit (n : Nat) : Char :=
  if n < 10 then Char.ofNat (48 + n) else Char.ofNat (55 + n)

/-- Characters `encodeURIComponent` leaves unescaped. -/
def uriUnreserved (c : Char) : Bool :=
  c.isAlphanum || c == '-' || c == '_' || c == '.' || c == '!' || c == '~' ||
  c == '*' || c == '\x27' || c == '(' || c == ')'

/-- `encodeURIComponent`, used to build the proxy URL query parameter. -/
def encodeURIComponent (s : String) : String :=
  ⟨s.data.foldr (fun c acc =>
      if uriUnreserved c then c :: acc
      else (utf8Bytes c).foldr (fun b acc2 => '%' :: hexDigit (b / 16) :: hexDigit (b % 16) :: acc2) acc)
    []⟩

/-- The gateway fallback loop of the client `fetchIpfs`: walk the candidate
URLs in order; a thrown fetch, a non-ok response, or a JSON-typed body that
fails to parse are skipped; the first success wins and stops the loop.
Returns the calls issued and, on success, the winning URL and stored data. -/
def runClientGateways (gw : String → NetResult) : List String → List Call × Option (String × Json)
  | [] => ([], none)
  | url :: rest =>
    let call : Call := { kind := .gateway, url := url, timeoutMs := none }
    match gw url with
    | .err =>
      let (cs, r) := runClientGateways gw rest
      (call :: cs, r)
    | .resp false _ _ _ =>
      let (cs, r) := runClientGateways gw rest
      (call :: cs, r)
    | .resp true ct json text =>
      if isJsonContentType ct then
        match json with
        | some j => ([call], some (url, j))
        | none =>
          let (cs, r) := runClientGateways gw rest
          (call :: cs, r)
      else
        ([call], some (url, match json with
          | some j => j
          | none => Json.obj [("content", Json.str text)]))

/-- `fetchIpfs` from the client page, as a function from the environment, the
raw argument and the pre-call state to the post-call state and the list of
network requests it issued, in order. -/
def fetchIpfs (env : ClientEnv) (rawIpfs : String) (s0 : IpfsState) : IpfsState × List Call :=
  if rawIpfs = "" then (s0, [])
  else
    let s1 := { s0 with ipfsLoading := true, ipfsError := none,
                        ipfsData := none, ipfsResolvedUrl := none }
    let normalized := normalize rawIpfs
    if normalized = "" then ({ s1 with ipfsLoading := false }, [])
    else
      let proxyUrl := "/api/ipfs?src=" ++ encodeURIComponent normalized
      let proxyCall : Call := { kind := .proxy, url := proxyUrl, timeoutMs := none }
      let proxyPayload : Option Json :=
        match env.proxy with
        | .resp true _ (some payload) _ =>
          if jsTruthy (jsGetD payload "ok") then some payload else none
        | _ => none
      match proxyPayload with
      | some payload =>
        let rv := jsGetD payload "resolvedUrl"
        ({ s1 with ipfsData := jsGet payload "data",
                   ipfsResolvedUrl := if jsTruthy rv then some rv else none,
                   ipfsError := none, ipfsLoading := false },
         [proxyCall])
      | none =>
        let tryUrls := clientTryUrls normalized
        let s2 := { s1 with ipfsFallbackUrls := tryUrls }
        match runClientGateways env.gw tryUrls with
        | (calls, some (url, j)) =>
          ({ s2 with ipfsData := some j, ipfsResolvedUrl := some (Json.str url),
                     ipfsLoading := false },
           proxyCall :: calls)
        | (calls, none) =>
          ({ s2 with ipfsError := some "Unable to load IPFS content from public gateways.",
                     ipfsLoading := false },
           proxyCall :: calls)

/-- The JSON envelope and status produced by the proxy route handler. -/
structure ProxyResponse where
  status : Nat
  ok : Bool
  error : Option String
  resolvedUrl : Option String
  contentType : Option String
  data : Option Json
  candidates : Option (List String)

/-- The candidate loop of the route handler `GET`.  Every request goes through
`fetchWithTimeout(url, 8000)`, i.e. carries an 8000 ms abort timer.  On a
non-JSON content type the raw text is used, downgraded from a best-effort
`JSON.parse` (`data = text; try { data = JSON.parse(text) } catch {}`). -/
def runServerGateways (gw : String → NetResult) : List String → List Call × Option (String × String × Json)
  | [] => ([], none)
  | url :: rest =>
    let call : Call := { kind := .gateway, url := url, timeoutMs := some 8000 }
    match gw url with
    | .err =>
      let (cs, r) := runServerGateways gw rest
      (call :: cs, r)
    | .resp false _ _ _ =>
      let (cs, r) := runServerGateways gw rest
      (call :: cs, r)
    | .resp true ct json text =>
      if isJsonContentType ct then
        match json with
        | some j => ([call], some (url, ct, j))
        | none =>
          let (cs, r) := runServerGateways gw rest
          (call :: cs, r)
      else
        ([call], some (url, ct, match json with
          | some j => j
          | none => Json.str text))

/-- The route handler `GET` of `/api/ipfs`: `rawSrc` is the `src` query
parameter (`""` when absent, matching `searchParams.get("src") || ""`).
Returns the response envelope and the gateway requests issued, in order. -/
def GET (gw : String → NetResult) (rawSrc : String) : ProxyResponse × List Call :=
  let src := normalize rawSrc
  if src = "" then
    ({ status := 400, ok := false, error := some "Missing or invalid src",
       resolvedUrl := none, contentType := none, data := none, candidates := none },
     [])
  else
    let tryUrls := buildCandidates src
    match runServerGateways gw tryUrls with
    | (calls, some (url, ct, d)) =>
      ({ status := 200, ok := true, error := none, resolvedUrl := some url,
         contentType := some ct, data := some d, candidates := none },
       calls)
    | (calls, none) =>
      ({ status := 502, ok := false,
         error := some "All public gateways failed (timeout/CORS/content missing).",
         resolvedUrl := none, contentType := none, data := none,
         candidates := some tryUrls },
       calls)

/-- The effective trait name of an attributes entry:
`a?.trait_type || a?.traitType`. -/
def attrTraitKey (a : Json) : Option Json :=
  match jsGet a "trait_type" with
  | some v => if jsTruthy v then some v else jsGet a "traitType"
  | none => jsGet a "traitType"

/-- Strict equality `(a?.trait_type || a?.traitType) === key` for a string
`key`: only a string value equal to `key` compares true. -/
def attrMatches (a : Json) (key : String) : Bool :=
  match attrTraitKey a with
  | some (.str s) => s == key
  | _ => false

/-- The `?? null` coalescing of `found?.value`: a missing (`undefined`) or
null value becomes the null marker. -/
def jsCoalesceNull : Option Json → Option Json
  | some .null => none
  | some v => some v
  | none => none

/-- `getAttr` from the client page: search the `attributes` array for the
first entry whose trait name equals the key, and return its `value` field
(`found?.value ?? null`, so a missing or null value and a missing match both
yield the null marker `none`). -/
def getAttr (ipfsData : Json) (key : String) : Option Json :=
  match jsGet ipfsData "attributes" with
  | some (.arr attrs) =>
    match attrs.find? (fun a => attrMatches a key) with
    | some found => jsCoalesceNull (jsGet found "value")
    | none => none
  | _ => none

/-- `formatDate` from the client page.  `new Date(d)` and
`toLocaleDateString()` are host-engine behavior, modelled as parameters:
`parse` returns the time value when the string parses as a date (`none` models
`isNaN(dt.getTime())`), `toLocale` renders a parsed date. -/
def formatDate (parse : String → Option Int) (toLocale : Int → String)
    (d : Option String) : String :=
  match d with
  | none => "—"
  | some s =>
    if s = "" then "—"
    else
      match parse s with
      | none => s
      | some t => toLocale t

/-- The guard `if (!val && val !== 0) return null` at the top of
`extractIpfsLink`: null, false and the empty string are rejected, the number
zero is exempted (and later falls through to the final `return null`). -/
def jsFalsyNotZero : Json → Bool
  | .null => true
  | .bool b => !b
  | .num _ => false
  | .str s => s == ""
  | .arr _ => false
  | .obj _ => false

/-- The regex `/^(Qm[1-9A-HJ-NP-Za-km-z]{44,}|bafy[\w-]{20,})$/i` of
`extractIpfsLink`.  Under the `/i` flag the base58-style class closes up to
`[1-9A-Za-z]` (each excluded letter has its other case inside the class), and
the `Qm` / `bafy` prefixes match in any case. -/
def isStringCid (s : String) : Bool :=
  (takesPrefixCI s.data "Qm".data
      && decide (s.data.length ≥ 46)
      && (s.data.drop 2).all (fun c => c.isAlphanum && c != '0'))
    ||
  (takesPrefixCI s.data "bafy".data
      && decide (s.data.length ≥ 24)
      && (s.data.drop 4).all (fun c => c.isAlphanum || c == '_' || c == '-'))

/-- The ordered candidate key list searched by `extractIpfsLink`. -/
def ipfsKeys : List String :=
  ["ipfs_link", "ipfs", "ip_fs_link", "tokenURI", "tokenUri", "url", "uri",
   "href", "link", "src", "path", "image", "animation_url", "metadata_uri",
   "gateway", "cid", "hash", "/"]

/-- The final fallback of the object case:
`[val.cid, val.hash, val["/"]].filter(Boolean)[0]`, returned only when it is a
string that matches the content-identifier pattern or starts with `ipfs://`. -/
def cidFallback (fields : List (String × Json)) : Option String :=
  let possible := ([List.lookup "cid" fields, List.lookup "hash" fields,
                    List.lookup "/" fields].filterMap id).filter jsTruthy
  match possible.head? with
  | some (.str s) =>
    if isStringCid s || jsStartsWith s "ipfs://" then some s else none
  | _ => none

/-- The keyed loop of `extractIpfsLink`:
`for (const k of keys) { if (k in val) { const got = extractIpfsLink(val[k]); if (got) return got } }`,
reading each `extractIpfsLink(val[k])` off the precomputed field results. -/
def extractFromKeys (ks : List String) (results : List (String × Option String)) : Option String :=
  match ks with
  | [] => none
  | k :: rest =>
    match List.lookup k results with
    | some (some t) => if t == "" then extractFromKeys rest results else some t
    | some none => extractFromKeys rest results
    | none => extractFromKeys rest results

mutual

/-- `extractIpfsLink` from the client page: strings are trimmed and returned,
arrays are searched in order, objects are searched along the fixed key list
(a falsy result lets the search continue, per `if (got) return got`), and the
content-identifier fallback runs only when the keyed search found nothing.
For structural recursion the object case first records the extraction result
of every field (`extractFields`) and the keyed loop (`extractFromKeys`) then
consults those results in key order; looking up a key and recursing into its
value, as the source does, yields the same value. -/
def extractIpfsLink (v : Json) : Option String :=
  if jsFalsyNotZero v then none
  else
    match v with
    | .str s => some (jsTrim s)
    | .arr xs => extractFromArray xs
    | .obj fields =>
      match extractFromKeys ipfsKeys (extractFields fields) with
      | some t => some t
      | none => cidFallback fields
    | _ => none

/-- The array loop of `extractIpfsLink`:
`for (const it of val) { const got = extractIpfsLink(it); if (got) return got }`. -/
def extractFromArray (xs : List Json) : Option String :=
  match xs with
  | [] => none
  | x :: rest =>
    match extractIpfsLink x with
    | some t => if t == "" then extractFromArray rest else some t
    | none => extractFromArray rest

/-- The extraction result of every object field, keyed by field name. -/
def extractFields (fields : List (String × Json)) : List (String × Option String) :=
  match fields with
  | [] => []
  | (k, v) :: rest => (k, extractIpfsLink v) :: extractFields rest

end

/-- The three credential verification states of the verify pages. -/
inductive VerificationStatus where
  | VERIFIED
  | NOT_FOUND
  | TAMPERED
deriving DecidableEq, Repr

/-- `toUpperCase()` (ASCII range; the synonym lists are ASCII). -/
def jsToUpperCase (s : String) : String := ⟨s.data.map Char.toUpper⟩

/-- The status mapping of the credential-info pages (identical in the
by-uuid page and the verifier portal page): uppercase the upstream
`status`/`result` string, match it against the three synonym lists, and
default to `VERIFIED` otherwise. -/
def credentialStatus (raw : String) : VerificationStatus :=
  let rawStatus := jsToUpperCase raw
  if ["VERIFIED", "VALID", "SUCCESS"].contains rawStatus then .VERIFIED
  else if ["NOT_FOUND", "MISSING", "NO_MATCH"].contains rawStatus then .NOT_FOUND
  else if ["TAMPERED", "INVALID", "MANIPULATED"].contains rawStatus then .TAMPERED
  else .VERIFIED

end SIH


namespace SIH

/-- Failure of the proxy attempt, as the client code treats it: a thrown
fetch, a non-ok response, a body that fails `pr.json()`, or an envelope whose
`ok` field is falsy all fall through to the gateway loop. -/
def proxyAttemptFails : NetResult → Bool
  | .resp true _ (some payload) _ => !(jsTruthy (jsGetD payload "ok"))
  | _ => true

/-- Failure of one gateway attempt, as both fetch loops treat it: a thrown
fetch, a non-ok response, or a JSON-flavored content type whose body fails to
parse; with a non-JSON content type the text branch always succeeds. -/
def gatewayAttemptFails : NetResult → Bool
  | .err => true
  | .resp false _ _ _ => true
  | .resp true ct json _ => isJsonContentType ct && json.isNone

/-- The leading identifier of a raw-cid pointer: first non-empty piece of the
split on `/`. -/
def pointerCid (p : String) : String :=
  ((jsSplitSlash p).filter (fun x => x ≠ "")).headD ""

/-- The optional remaining path of a raw-cid pointer: the other non-empty
pieces rejoined behind a slash, or empty. -/
def pointerPath (p : String) : String :=
  let rest := ((jsSplitSlash p).filter (fun x => x ≠ "")).tail
  if rest.isEmpty then "" else "/" ++ joinWith "/" rest

/-- The metadata object of the specification scenario:
`{name:"BSc Physics", attributes:[{trait_type:"GPA", value:"3.8"}]}`. -/
def exampleMetadata : Json :=
  Json.obj [("name", Json.str "BSc Physics"),
            ("attributes", Json.arr [Json.obj [("trait_type", Json.str "GPA"),
                                               ("value", Json.str "3.8")]])]

end SIH
namespace SIH

theorem runClientGateways_all_fail (gw : String → NetResult) :
    ∀ urls : List String, (∀ u ∈ urls, gatewayAttemptFails (gw u) = true) →
      runClientGateways gw urls =
        (urls.map (fun u => { kind := .gateway, url := u, timeoutMs := none }), none) := by
  intro urls
  induction urls with
  | nil => intro _; rfl
  | cons u rest ih =>
    intro h
    have hu : gatewayAttemptFails (gw u) = true := h u (by simp)
    have hrest := ih (fun v hv => h v (by simp [hv]))
    cases hgw : gw u with
    | err => simp [runClientGateways, hgw, hrest]
    | resp ok ct json text =>
      cases ok with
      | false => simp [runClientGateways, hgw, hrest]
      | true =>
        rw [hgw] at hu
        simp only [gatewayAttemptFails, Bool.and_eq_true, Option.isNone_iff_eq_none] at hu
        obtain ⟨hct, hjson⟩ := hu
        subst hjson
        simp [runClientGateways, hgw, hct, hrest]

end SIH

namespace SIH

theorem runClientGateways_calls_timeout (gw : String → NetResult) :
    ∀ urls : List String, ∀ c ∈ (runClientGateways gw urls).1, c.timeoutMs = none := by
  intro urls
  induction urls with
  | nil => intro c hc; simp [runClientGateways] at hc
  | cons u rest ih =>
    intro c hc
    rcases hr : runClientGateways gw rest with ⟨cs, r⟩
    have ih2 : ∀ d ∈ cs, d.timeoutMs = none := fun d hd => ih d (by rw [hr]; exact hd)
    simp only [runClientGateways, hr] at hc
    cases hgw : gw u with
    | err =>
      simp only [hgw, List.mem_cons] at hc
      rcases hc with h1 | h2
      · rw [h1]
      · exact ih2 c h2
    | resp ok ct json text =>
      cases ok with
      | false =>
        simp only [hgw, List.mem_cons] at hc
        rcases hc with h1 | h2
        · rw [h1]
        · exact ih2 c h2
      | true =>
        cases json with
        | some j =>
          simp only [hgw] at hc
          split at hc <;> simp only [List.mem_singleton] at hc <;> rw [hc]
        | none =>
          simp only [hgw] at hc
          split at hc
          · simp only [List.mem_cons] at hc
            rcases hc with h1 | h2
            · rw [h1]
            · exact ih2 c h2
          · simp only [List.mem_singleton] at hc
            rw [hc]

end SIH

namespace SIH

theorem runServerGateways_calls_timeout (gw : String → NetResult) :
    ∀ urls : List String, ∀ c ∈ (runServerGateways gw urls).1, c.timeoutMs = some 8000 := by
  intro urls
  induction urls with
  | nil => intro c hc; simp [runServerGateways] at hc
  | cons u rest ih =>
    intro c hc
    rcases hr : runServerGateways gw rest with ⟨cs, r⟩
    have ih2 : ∀ d ∈ cs, d.timeoutMs = some 8000 := fun d hd => ih d (by rw [hr]; exact hd)
    simp only [runServerGateways, hr] at hc
    cases hgw : gw u with
    | err =>
      simp only [hgw, List.mem_cons] at hc
      rcases hc with h1 | h2
      · rw [h1]
      · exact ih2 c h2
    | resp ok ct json text =>
      cases ok with
      | false =>
        simp only [hgw, List.mem_cons] at hc
        rcases hc with h1 | h2
        · rw [h1]
        · exact ih2 c h2
      | true =>
        cases json with
        | some j =>
          simp only [hgw] at hc
          split at hc <;> simp only [List.mem_singleton] at hc <;> rw [hc]
        | none =>
          simp only [hgw] at hc
          split at hc
          · simp only [List.mem_cons] at hc
            rcases hc with h1 | h2
            · rw [h1]
            · exact ih2 c h2
          · simp only [List.mem_singleton] at hc
            rw [hc]

theorem runServerGateways_some_success (gw : String → NetResult) :
    ∀ (urls : List String) (calls : List Call) (x : String × String × Json),
      runServerGateways gw urls = (calls, some x) →
      ∃ c ∈ calls, gatewayAttemptFails (gw c.url) = false := by
  intro urls
  induction urls with
  | nil => intro calls x h; simp [runServerGateways] at h
  | cons u rest ih =>
    intro calls x h
    rcases hr : runServerGateways gw rest with ⟨cs, r⟩
    simp only [runServerGateways, hr] at h
    cases hgw : gw u with
    | err =>
      simp only [hgw, Prod.mk.injEq] at h
      obtain ⟨rfl, hres⟩ := h
      obtain ⟨c, hc, hsucc⟩ := ih cs x (by rw [hr, hres])
      exact ⟨c, List.mem_cons_of_mem _ hc, hsucc⟩
    | resp ok ct json text =>
      cases ok with
      | false =>
        simp only [hgw, Prod.mk.injEq] at h
        obtain ⟨rfl, hres⟩ := h
        obtain ⟨c, hc, hsucc⟩ := ih cs x (by rw [hr, hres])
        exact ⟨c, List.mem_cons_of_mem _ hc, hsucc⟩
      | true =>
        cases json with
        | some j =>
          simp only [hgw] at h
          split at h <;>
          · simp only [Prod.mk.injEq] at h
            obtain ⟨rfl, -⟩ := h
            refine ⟨_, List.mem_singleton_self _, ?_⟩
            simp [hgw, gatewayAttemptFails]
        | none =>
          simp only [hgw] at h
          split at h
          case isTrue hct =>
            simp only [Prod.mk.injEq] at h
            obtain ⟨rfl, hres⟩ := h
            obtain ⟨c, hc, hsucc⟩ := ih cs x (by rw [hr, hres])
            exact ⟨c, List.mem_cons_of_mem _ hc, hsucc⟩
          case isFalse hct =>
            simp only [Prod.mk.injEq] at h
            obtain ⟨rfl, -⟩ := h
            refine ⟨_, List.mem_singleton_self _, ?_⟩
            simp only [gatewayAttemptFails, hgw]
            simp [Bool.not_eq_true] at hct
            simp [hct]

end SIH

namespace SIH

theorem find_first_split {α : Type} (p : α → Bool) :
    ∀ (l : List α) (a : α), l.find? p = some a →
      ∃ pre post, l = pre ++ a :: post ∧ (∀ b ∈ pre, p b = false) ∧ p a = true := by
  intro l
  induction l with
  | nil => intro a h; simp [List.find?] at h
  | cons x xs ih =>
    intro a h
    by_cases hx : p x = true
    · rw [List.find?_cons_of_pos _ hx] at h
      simp only [Option.some.injEq] at h
      subst h
      exact ⟨[], xs, rfl, by simp, hx⟩
    · rw [List.find?_cons_of_neg _ hx] at h
      obtain ⟨pre, post, rfl, hpre, hpa⟩ := ih a h
      refine ⟨x :: pre, post, rfl, ?_, hpa⟩
      intro b hb
      rcases List.mem_cons.mp hb with rfl | hb2
      · simpa using hx
      · exact hpre b hb2

theorem takesPrefixCI_append (p : List Char) :
    ∀ (x y : List Char), p.length ≤ x.length →
      takesPrefixCI (x ++ y) p = takesPrefixCI x p := by
  induction p with
  | nil => intro x y _; cases x <;> simp [takesPrefixCI]
  | cons a ps ih =>
    intro x y h
    cases x with
    | nil => simp at h
    | cons c cs =>
      simp only [List.cons_append, takesPrefixCI]
      rw [show cs.append y = cs ++ y from rfl, ih cs y (by simpa using h)]

end SIH

namespace SIH

/-- C5: for a pointer that is not an http(s) URL (the raw-cid case), the
candidate resolver `buildCandidates` splits the pointer on `/` into a leading
identifier and an optional remaining path and returns, in this fixed
preference order, the five path-style gateway URLs followed by the two
subdomain-style gateway URLs. -/
theorem buildCandidates_two_styles (src : String) (h : isHttpUrl src = false) :
    buildCandidates src =
      [ "https://cloudflare-ipfs.com/ipfs/" ++ pointerCid src ++ pointerPath src,
        "https://ipfs.io/ipfs/" ++ pointerCid src ++ pointerPath src,
        "https://nftstorage.link/ipfs/" ++ pointerCid src ++ pointerPath src,
        "https://dweb.link/ipfs/" ++ pointerCid src ++ pointerPath src,
        "https://gateway.pinata.cloud/ipfs/" ++ pointerCid src ++ pointerPath src,
        "https://" ++ pointerCid src ++ ".ipfs.nftstorage.link" ++ pointerPath src,
        "https://" ++ pointerCid src ++ ".ipfs.dweb.link" ++ pointerPath src ] := by
  simp only [buildCandidates, h, Bool.false_eq_true, if_false, pointerCid, pointerPath]

/-- Witness for C5 at the pointer `QmZ/p/q`. -/
theorem buildCandidates_two_styles_witness :
    isHttpUrl "QmZ/p/q" = false ∧
    buildCandidates "QmZ/p/q" =
      [ "https://cloudflare-ipfs.com/ipfs/QmZ/p/q",
        "https://ipfs.io/ipfs/QmZ/p/q",
        "https://nftstorage.link/ipfs/QmZ/p/q",
        "https://dweb.link/ipfs/QmZ/p/q",
        "https://gateway.pinata.cloud/ipfs/QmZ/p/q",
        "https://QmZ.ipfs.nftstorage.link/p/q",
        "https://QmZ.ipfs.dweb.link/p/q" ] :=
  ⟨by decide, (buildCandidates_two_styles "QmZ/p/q" (by decide)).trans (by decide)⟩

/-- C8: the display formatter `formatDate` maps a missing or empty input to
the em-dash placeholder, a parsable date to its locale rendering, and an
unparsable input to the raw string unchanged. -/
theorem formatDate_spec (parse : String → Option Int) (toLocale : Int → String) :
    formatDate parse toLocale none = "—" ∧
    formatDate parse toLocale (some "") = "—" ∧
    (∀ s t, s ≠ "" → parse s = some t →
        formatDate parse toLocale (some s) = toLocale t) ∧
    (∀ s, s ≠ "" → parse s = none → formatDate parse toLocale (some s) = s) := by
  refine ⟨rfl, rfl, ?_, ?_⟩
  · intro s t hs hp
    simp [formatDate, hs, hp]
  · intro s hs hp
    simp [formatDate, hs, hp]

/-- Witness for C8 with a parser that accepts only `2020-01-01`. -/
theorem formatDate_spec_witness :
    formatDate (fun s => if s = "2020-01-01" then some 0 else none) (fun _ => "1/1/2020") none = "—" ∧
    formatDate (fun s => if s = "2020-01-01" then some 0 else none) (fun _ => "1/1/2020") (some "") = "—" ∧
    formatDate (fun s => if s = "2020-01-01" then some 0 else none) (fun _ => "1/1/2020") (some "2020-01-01") = "1/1/2020" ∧
    formatDate (fun s => if s = "2020-01-01" then some 0 else none) (fun _ => "1/1/2020") (some "soon") = "soon" := by
  obtain ⟨h1, h2, h3, h4⟩ :=
    formatDate_spec (fun s => if s = "2020-01-01" then some 0 else none) (fun _ => "1/1/2020")
  exact ⟨h1, h2, h3 "2020-01-01" 0 (by decide) (by decide), h4 "soon" (by decide) (by decide)⟩

/-- C9: an upstream status string whose uppercase form is in none of the three
recognized synonym lists is mapped to `VERIFIED` by default (fail-open). -/
theorem credentialStatus_default_verified (raw : String)
    (h1 : (["VERIFIED", "VALID", "SUCCESS"].contains (jsToUpperCase raw)) = false)
    (h2 : (["NOT_FOUND", "MISSING", "NO_MATCH"].contains (jsToUpperCase raw)) = false)
    (h3 : (["TAMPERED", "INVALID", "MANIPULATED"].contains (jsToUpperCase raw)) = false) :
    credentialStatus raw = .VERIFIED := by
  simp only [credentialStatus, h1, h2, h3, Bool.false_eq_true, if_false]

/-- Witness for C9 at the unrecognized status `banana`. -/
theorem credentialStatus_default_verified_witness :
    credentialStatus "banana" = .VERIFIED :=
  credentialStatus_default_verified "banana" (by decide) (by decide) (by decide)

end SIH

namespace SIH

/-- C1: when the input normalizes to something non-empty (so the pipeline
runs) and the proxy responds ok with a parsable envelope whose `ok` field is
truthy, `fetchIpfs` stores the envelope payload and resolved URL and its whole
network trace is exactly the single proxy request — no gateway mirror URL is
ever contacted and the proxy is attempted exactly once. -/
theorem fetchIpfs_proxy_success
    (env : ClientEnv) (raw : String) (s0 : IpfsState)
    (ct : String) (payload : Json) (text : String)
    (hraw : raw ≠ "")
    (hnorm : normalize raw ≠ "")
    (hproxy : env.proxy = .resp true ct (some payload) text)
    (hok : jsTruthy (jsGetD payload "ok") = true) :
    fetchIpfs env raw s0 =
      ({ ipfsData := jsGet payload "data",
         ipfsResolvedUrl :=
           if jsTruthy (jsGetD payload "resolvedUrl")
           then some (jsGetD payload "resolvedUrl") else none,
         ipfsError := none, ipfsLoading := false,
         ipfsFallbackUrls := s0.ipfsFallbackUrls },
       [{ kind := .proxy,
          url := "/api/ipfs?src=" ++ encodeURIComponent (normalize raw),
          timeoutMs := none }]) := by
  simp only [fetchIpfs, hraw, hnorm, hproxy, hok, if_true, if_false, ite_false, ite_true]

/-- Witness for C1: a concrete successful proxy envelope, with a gateway
environment that would fail every mirror; the trace is the one proxy call. -/
theorem fetchIpfs_proxy_success_witness :
    fetchIpfs
      { proxy := .resp true "application/json"
          (some (Json.obj [("ok", Json.bool true), ("data", Json.str "x"),
                           ("resolvedUrl", Json.str "u")])) "",
        gw := fun _ => .err }
      "QmFoo" initialIpfsState =
      ({ ipfsData := some (Json.str "x"),
         ipfsResolvedUrl := some (Json.str "u"),
         ipfsError := none, ipfsLoading := false, ipfsFallbackUrls := [] },
       [{ kind := .proxy, url := "/api/ipfs?src=QmFoo", timeoutMs := none }]) := by
  rw [fetchIpfs_proxy_success _ _ _ "application/json"
        (Json.obj [("ok", Json.bool true), ("data", Json.str "x"),
                   ("resolvedUrl", Json.str "u")]) ""
        (by decide) (by decide) rfl (by rfl)]
  rfl

end SIH

namespace SIH

/-- C2: when the pipeline runs (non-empty normalized pointer), the proxy
attempt fails and every candidate gateway URL fails, `fetchIpfs` sets the
exhausted-gateways error message while `ipfsResolvedUrl` stays null; whereas
an input that normalizes to the empty string returns with no error set and an
empty network trace — the two outcomes are distinguishable to the caller. -/
theorem fetchIpfs_exhausted_vs_empty :
    (∀ (env : ClientEnv) (raw : String) (s0 : IpfsState),
        raw ≠ "" → normalize raw ≠ "" →
        proxyAttemptFails env.proxy = true →
        (∀ u ∈ clientTryUrls (normalize raw), gatewayAttemptFails (env.gw u) = true) →
        (fetchIpfs env raw s0).1.ipfsError =
            some "Unable to load IPFS content from public gateways." ∧
        (fetchIpfs env raw s0).1.ipfsResolvedUrl = none)
    ∧
    (∀ (env : ClientEnv) (raw : String) (s0 : IpfsState),
        normalize raw = "" → s0.ipfsError = none →
        (fetchIpfs env raw s0).1.ipfsError = none ∧ (fetchIpfs env raw s0).2 = []) := by
  constructor
  · intro env raw s0 hraw hnorm hpf hgws
    have hrun := runClientGateways_all_fail env.gw (clientTryUrls (normalize raw)) hgws
    cases hp : env.proxy with
    | err =>
      simp only [fetchIpfs, hraw, hnorm, hp, hrun, if_false, ite_false, ite_true]
      simp [hraw, hnorm]
    | resp ok ct j t =>
      cases ok with
      | false =>
        simp only [fetchIpfs, hraw, hnorm, hp, hrun]
        simp [hraw, hnorm]
      | true =>
        cases j with
        | none =>
          simp only [fetchIpfs, hraw, hnorm, hp, hrun]
          simp [hraw, hnorm]
        | some payload =>
          rw [hp] at hpf
          simp only [proxyAttemptFails, Bool.not_eq_true'] at hpf
          simp only [fetchIpfs, hraw, hnorm, hp, hpf, hrun]
          simp [hraw, hnorm]
  · intro env raw s0 hnorm herr
    by_cases hraw : raw = ""
    · simp [fetchIpfs, hraw, herr]
    · simp [fetchIpfs, hraw, hnorm]

/-- Witness for C2: a proxy and gateways that all fail for `QmFoo`, against
the blank input `" "` which normalizes to the empty string. -/
theorem fetchIpfs_exhausted_vs_empty_witness :
    ((fetchIpfs { proxy := .err, gw := fun _ => .err } "QmFoo" initialIpfsState).1.ipfsError =
        some "Unable to load IPFS content from public gateways." ∧
      (fetchIpfs { proxy := .err, gw := fun _ => .err } "QmFoo" initialIpfsState).1.ipfsResolvedUrl = none) ∧
    ((fetchIpfs { proxy := .err, gw := fun _ => .err } " " initialIpfsState).1.ipfsError = none ∧
      (fetchIpfs { proxy := .err, gw := fun _ => .err } " " initialIpfsState).2 = []) :=
  ⟨fetchIpfs_exhausted_vs_empty.1 { proxy := .err, gw := fun _ => .err } "QmFoo"
      initialIpfsState (by decide) (by decide) rfl (fun u _ => rfl),
   fetchIpfs_exhausted_vs_empty.2 { proxy := .err, gw := fun _ => .err } " "
      initialIpfsState (by decide) rfl⟩

end SIH

namespace SIH

/-- C10: a request whose `src` query parameter is absent or normalizes to the
empty string gets HTTP 400 with an `ok:false` envelope carrying an error
message and no gateway fetch is attempted; and an `ok:true` envelope is
returned only after some issued gateway request actually succeeded. -/
theorem GET_empty_src_and_ok_envelope :
    (∀ (gw : String → NetResult) (raw : String),
        normalize raw = "" →
        GET gw raw =
          ({ status := 400, ok := false, error := some "Missing or invalid src",
             resolvedUrl := none, contentType := none, data := none,
             candidates := none }, []))
    ∧
    (∀ (gw : String → NetResult) (raw : String),
        (GET gw raw).1.ok = true →
        ∃ c ∈ (GET gw raw).2, gatewayAttemptFails (gw c.url) = false) := by
  constructor
  · intro gw raw h
    simp [GET, h]
  · intro gw raw hok
    by_cases hsrc : normalize raw = ""
    · simp [GET, hsrc] at hok
    · rcases hrun : runServerGateways gw (buildCandidates (normalize raw)) with ⟨calls, r⟩
      cases r with
      | none => simp [GET, hsrc, hrun] at hok
      | some x =>
        have := runServerGateways_some_success gw (buildCandidates (normalize raw)) calls x hrun
        simpa [GET, hsrc, hrun] using this

/-- Witness for C10: the absent parameter (empty string) yields the 400
envelope with no calls, and an environment whose second candidate succeeds
yields `ok:true` with a successful call in the trace. -/
theorem GET_empty_src_and_ok_envelope_witness :
    (GET (fun _ => .err) "" =
      ({ status := 400, ok := false, error := some "Missing or invalid src",
         resolvedUrl := none, contentType := none, data := none,
         candidates := none }, [])) ∧
    (∃ c ∈ (GET
        (fun u => if u = "https://ipfs.io/ipfs/QmFoo"
                  then .resp true "application/json" (some (Json.str "d")) "d"
                  else .err) "QmFoo").2,
      gatewayAttemptFails
        ((fun u => if u = "https://ipfs.io/ipfs/QmFoo"
                   then .resp true "application/json" (some (Json.str "d")) "d"
                   else .err) c.url) = false) :=
  ⟨GET_empty_src_and_ok_envelope.1 (fun _ => .err) "" (by decide),
   GET_empty_src_and_ok_envelope.2
     (fun u => if u = "https://ipfs.io/ipfs/QmFoo"
               then .resp true "application/json" (some (Json.str "d")) "d"
               else .err) "QmFoo" (by rfl)⟩

end SIH

namespace SIH

/-- C6 counterexample: with a failing proxy and failing gateways, the client
pipeline run for `QmFoo` issues requests of which not every one carries a
timeout — in fact none of its six requests (one proxy, five gateways) has an
abort timer attached, refuting the claim that every external call of the
fetch pipeline is bounded by a timeout. -/
theorem fetchIpfs_no_timeout_counterexample :
    ((fetchIpfs { proxy := .err, gw := fun _ => .err } "QmFoo" initialIpfsState).2.all
        (fun c => c.timeoutMs.isSome)) = false := by rfl


/-- C6 amended: only the server proxy route bounds its gateway requests with
the 8000 ms abort timer of `fetchWithTimeout`; every request issued by the
client-side `fetchIpfs` (the proxy request and each gateway request) carries
no timeout at all. -/
theorem timeouts_only_in_proxy_route :
    (∀ (gw : String → NetResult) (raw : String),
        ∀ c ∈ (GET gw raw).2, c.timeoutMs = some 8000)
    ∧
    (∀ (env : ClientEnv) (raw : String) (s0 : IpfsState),
        ∀ c ∈ (fetchIpfs env raw s0).2, c.timeoutMs = none) := by
  constructor
  · intro gw raw c hc
    by_cases hsrc : normalize raw = ""
    · simp [GET, hsrc] at hc
    · rcases hrun : runServerGateways gw (buildCandidates (normalize raw)) with ⟨calls, r⟩
      have hcalls : c ∈ calls := by
        cases r with
        | none => simpa [GET, hsrc, hrun] using hc
        | some x => simpa [GET, hsrc, hrun] using hc
      exact runServerGateways_calls_timeout gw (buildCandidates (normalize raw)) c
        (by rw [hrun]; exact hcalls)
  · intro env raw s0 c hc
    by_cases hraw : raw = ""
    · simp [fetchIpfs, hraw] at hc
    · by_cases hnorm : normalize raw = ""
      · simp [fetchIpfs, hraw, hnorm] at hc
      · rcases hrun : runClientGateways env.gw (clientTryUrls (normalize raw)) with ⟨calls, r⟩
        have hmem : c ∈ (Call.mk CallKind.proxy
              ("/api/ipfs?src=" ++ encodeURIComponent (normalize raw)) none) :: calls ∨
            c ∈ [Call.mk CallKind.proxy
              ("/api/ipfs?src=" ++ encodeURIComponent (normalize raw)) none] := by
          cases hp : env.proxy with
          | err =>
            cases r with
            | none => left; simpa [fetchIpfs, hraw, hnorm, hp, hrun] using hc
            | some x => left; simpa [fetchIpfs, hraw, hnorm, hp, hrun] using hc
          | resp ok ct j t =>
            cases ok with
            | false =>
              cases r with
              | none => left; simpa [fetchIpfs, hraw, hnorm, hp, hrun] using hc
              | some x => left; simpa [fetchIpfs, hraw, hnorm, hp, hrun] using hc
            | true =>
              cases j with
              | none =>
                cases r with
                | none => left; simpa [fetchIpfs, hraw, hnorm, hp, hrun] using hc
                | some x => left; simpa [fetchIpfs, hraw, hnorm, hp, hrun] using hc
              | some payload =>
                by_cases hok : jsTruthy (jsGetD payload "ok") = true
                · right; simpa [fetchIpfs, hraw, hnorm, hp, hok, hrun] using hc
                · rw [Bool.not_eq_true] at hok
                  cases r with
                  | none => left; simpa [fetchIpfs, hraw, hnorm, hp, hok, hrun] using hc
                  | some x => left; simpa [fetchIpfs, hraw, hnorm, hp, hok, hrun] using hc
        rcases hmem with h1 | h2
        · rcases List.mem_cons.mp h1 with rfl | h3
          · rfl
          · exact runClientGateways_calls_timeout env.gw (clientTryUrls (normalize raw)) c
              (by rw [hrun]; exact h3)
        · rw [List.mem_singleton.mp h2]


/-- Witness for the amended C6: a server-route call for `QmFoo` carries the
8000 ms timer; the client proxy call for `QmFoo` carries none. -/
theorem timeouts_only_in_proxy_route_witness :
    (Call.mk CallKind.gateway "https://cloudflare-ipfs.com/ipfs/QmFoo" (some 8000)).timeoutMs
        = some 8000 ∧
    (Call.mk CallKind.proxy "/api/ipfs?src=QmFoo" none).timeoutMs = none :=
  ⟨timeouts_only_in_proxy_route.1 (fun _ => .err) "QmFoo"
      (Call.mk CallKind.gateway "https://cloudflare-ipfs.com/ipfs/QmFoo" (some 8000))
      (by decide),
   timeouts_only_in_proxy_route.2 { proxy := .err, gw := fun _ => .err } "QmFoo"
      initialIpfsState
      (Call.mk CallKind.proxy "/api/ipfs?src=QmFoo" none)
      (by decide)⟩

end SIH

namespace SIH

theorem jsCoalesceNull_eq_some {o : Option Json} {v : Json}
    (h : jsCoalesceNull o = some v) : o = some v ∧ v ≠ Json.null := by
  cases o with
  | none => exact absurd h (by simp [jsCoalesceNull])
  | some w =>
    cases w
    case null => exact absurd h (by simp [jsCoalesceNull])
    all_goals
      simp only [jsCoalesceNull, Option.some.injEq] at h
      subst h
      exact ⟨rfl, by simp⟩

/-- C7: `getAttr` returns the value of the first attributes entry whose
effective trait name (`trait_type`, falling back to `traitType` when the
former is falsy) equals the label, returns the null marker when the
`attributes` field is missing or not a list or no entry matches, and — being
a total function — never throws; on the scenario metadata, label `GPA` yields
`"3.8"` and label `Major` yields the null marker. -/
theorem getAttr_first_match_spec :
    (∀ (d : Json) (key : String) (v : Json),
        getAttr d key = some v →
        ∃ attrs pre a post,
          jsGet d "attributes" = some (Json.arr attrs) ∧
          attrs = pre ++ a :: post ∧
          (∀ b ∈ pre, attrMatches b key = false) ∧
          attrMatches a key = true ∧
          jsGet a "value" = some v ∧ v ≠ Json.null)
    ∧ (∀ (d : Json) (key : String),
        (∀ attrs, jsGet d "attributes" ≠ some (Json.arr attrs)) →
        getAttr d key = none)
    ∧ (∀ (d : Json) (key : String) (attrs : List Json),
        jsGet d "attributes" = some (Json.arr attrs) →
        (∀ a ∈ attrs, attrMatches a key = false) →
        getAttr d key = none)
    ∧ getAttr exampleMetadata "GPA" = some (Json.str "3.8")
    ∧ getAttr exampleMetadata "Major" = none := by
  refine ⟨?_, ?_, ?_, rfl, rfl⟩
  · intro d key v h
    rcases ha : jsGet d "attributes" with _ | j
    · simp [getAttr, ha] at h
    · cases j with
      | arr attrs =>
        rcases hf : attrs.find? (fun a => attrMatches a key) with _ | found
        · simp [getAttr, ha, hf] at h
        · simp only [getAttr, ha, hf] at h
          obtain ⟨hval, hnn⟩ := jsCoalesceNull_eq_some h
          obtain ⟨pre, post, heq, hpre, hmatch⟩ :=
            find_first_split (fun a => attrMatches a key) attrs found hf
          exact ⟨attrs, pre, found, post, rfl, heq, hpre, hmatch, hval, hnn⟩
      | null => simp [getAttr, ha] at h
      | bool b => simp [getAttr, ha] at h
      | num n => simp [getAttr, ha] at h
      | str s => simp [getAttr, ha] at h
      | obj fields => simp [getAttr, ha] at h
  · intro d key h
    rcases ha : jsGet d "attributes" with _ | j
    · simp [getAttr, ha]
    · cases j with
      | arr attrs => exact absurd ha (h attrs)
      | null => simp [getAttr, ha]
      | bool b => simp [getAttr, ha]
      | num n => simp [getAttr, ha]
      | str s => simp [getAttr, ha]
      | obj fields => simp [getAttr, ha]
  · intro d key attrs ha hall
    have hf : attrs.find? (fun a => attrMatches a key) = none :=
      List.find?_eq_none.mpr (fun a haa => by simp [hall a haa])
    simp [getAttr, ha, hf]

/-- Witness for C7, instantiating each hypothesis-bearing part: the scenario
metadata for both labels, and a non-object metadata value for the
missing-attributes part. -/
theorem getAttr_first_match_spec_witness :
    getAttr exampleMetadata "GPA" = some (Json.str "3.8") ∧
    getAttr exampleMetadata "Major" = none ∧
    getAttr (Json.str "noattrs") "GPA" = none :=
  ⟨getAttr_first_match_spec.2.2.2.1,
   getAttr_first_match_spec.2.2.2.2,
   getAttr_first_match_spec.2.1 (Json.str "noattrs") "GPA" (fun _ => by simp [jsGet])⟩


end SIH

namespace SIH

/-- C3 counterexample: the object `{cid: "notacid"}` makes `extractIpfsLink`
return `"notacid"` even though that string neither matches the
content-identifier pattern nor starts with `ipfs://` — the `cid`/`hash` keys
sit in the priority key list, whose loop returns any non-blank string without
a pattern check, so the claimed guard does not hold. -/
theorem extractIpfsLink_cid_pattern_counterexample :
    extractIpfsLink (Json.obj [("cid", Json.str "notacid")]) = some "notacid" ∧
    isStringCid "notacid" = false ∧
    jsStartsWith "notacid" "ipfs://" = false := by
  refine ⟨by decide, by decide, by decide⟩

/-- C3 amended: a string stored under a `cid` key is returned (trimmed) by the
keyed search whenever it is non-blank, regardless of whether it matches a
content-identifier pattern or carries an `ipfs://` prefix; the
pattern-checking fallback only runs when the keyed search finds nothing
truthy. -/
theorem extractIpfsLink_cid_returned_unchecked (s : String) (htrim : jsTrim s = s) :
    extractIpfsLink (Json.obj [("cid", Json.str s)]) =
      if s = "" then none else some s := by
  by_cases hs : s = ""
  · subst hs
    simp only [if_pos rfl]
    decide
  · simp only [extractIpfsLink, extractFields, extractFromKeys, ipfsKeys,
      jsFalsyNotZero, List.lookup, htrim, hs, if_neg hs]
    simp [hs, htrim]

/-- Witness for the amended C3 at the pattern-free identifier `plaincid`. -/
theorem extractIpfsLink_cid_returned_unchecked_witness :
    extractIpfsLink (Json.obj [("cid", Json.str "plaincid")]) = some "plaincid" := by
  rw [extractIpfsLink_cid_returned_unchecked "plaincid" (by decide)]
  decide

end SIH

namespace SIH

theorem takesPrefixCI_append_split :
    ∀ (x p y : List Char),
      takesPrefixCI (x ++ y) p =
        (takesPrefixCI x (p.take x.length) && takesPrefixCI y (p.drop x.length)) := by
  intro x
  induction x with
  | nil => intro p y; simp [takesPrefixCI]
  | cons c cs ih =>
    intro p y
    cases p with
    | nil => simp [takesPrefixCI]
    | cons a ps =>
      simp only [List.cons_append, takesPrefixCI, List.length_cons,
        List.take_succ_cons, List.drop_succ_cons]
      rw [show cs.append y = cs ++ y from rfl, ih ps y, Bool.and_assoc]

theorem startsWithCI_append_split (x y p : String) :
    startsWithCI (x ++ y) p =
      (takesPrefixCI x.data (p.data.take x.data.length) &&
       takesPrefixCI y.data (p.data.drop x.data.length)) := by
  simp only [startsWithCI, String.data_append]
  exact takesPrefixCI_append_split x.data p.data y.data

theorem dropChars_append (x y : String) : dropChars (x ++ y) x.data.length = y := by
  simp only [dropChars, String.data_append, List.drop_left]

theorem append_ne_empty_of_left (x y : String) (h : x.data ≠ []) : x ++ y ≠ "" := by
  intro he
  rw [String.ext_iff, String.data_append] at he
  exact h (List.append_eq_nil.mp he).1


/-- C4 counterexample: the input `ipfs://ipfs://abc` normalizes to
`ipfs://abc`, a non-empty output that is not an http(s) URL (hence classified
raw-cid by the claim) yet still carries a protocol prefix — each `replace`
strips one anchored prefix only once, so a doubled prefix survives. -/
theorem normalize_double_prefix_counterexample :
    normalize "ipfs://ipfs://abc" = "ipfs://abc" ∧
    ("ipfs://abc" : String) ≠ "" ∧
    isHttpUrl "ipfs://abc" = false ∧
    hasSchemePrefix "ipfs://abc" = true := by
  refine ⟨by decide, by decide, by decide, by decide⟩

/-- C4 amended: the normalizer applies its rules in order (trim first —
`normalize` is the post-trim normalizer after `jsTrim` — then the `ar://`
rewrite to the Arweave gateway, then the http(s) pass-through, then the
stripping of a single leading `ipfs://`, `/ipfs/` or `ipfs/`).  For an
identifier carrying no scheme prefix and no residual IPFS prefix, each of the
four supported raw-cid input shapes normalizes to the bare identifier, so the
raw-cid output carries no protocol prefix; a doubled prefix or a foreign
scheme can survive the single stripping pass (see the counterexample). -/
theorem normalize_single_prefix_no_scheme (id : String)
    (h0 : hasSchemePrefix id = false)
    (h1 : startsWithCI id "ar://" = false)
    (h2 : isHttpUrl id = false)
    (h3 : startsWithCI id "ipfs://" = false)
    (h4 : startsWithCI id "/ipfs/" = false)
    (h5 : startsWithCI id "ipfs/" = false) :
    normalizeAfterTrim id = id ∧
    normalizeAfterTrim ("ipfs://" ++ id) = id ∧
    normalizeAfterTrim ("/ipfs/" ++ id) = id ∧
    normalizeAfterTrim ("ipfs/" ++ id) = id ∧
    hasSchemePrefix (normalizeAfterTrim ("ipfs://" ++ id)) = false ∧
    (∀ s : String, normalize s = normalizeAfterTrim (jsTrim s)) ∧
    (∀ s : String, startsWithCI s "ar://" = true →
        normalizeAfterTrim s = "https://arweave.net/" ++ dropChars s 5) ∧
    (∀ s : String, startsWithCI s "ar://" = false → isHttpUrl s = true →
        normalizeAfterTrim s = s) := by
  have base : normalizeAfterTrim id = id := by
    by_cases hid : id = ""
    · subst hid; rfl
    · simp [normalizeAfterTrim, hid, h1, h2, h3, h4, h5, isHttpUrl] at *
  have bIpfs : normalizeAfterTrim ("ipfs://" ++ id) = id := by
    have hne : ("ipfs://" ++ id) ≠ "" := append_ne_empty_of_left _ _ (by decide)
    have har : startsWithCI ("ipfs://" ++ id) "ar://" = false := by
      rw [startsWithCI_append_split]
      rw [show takesPrefixCI "ipfs://".data ("ar://".data.take "ipfs://".data.length) = false from by decide]
      simp
    have hhttp : isHttpUrl ("ipfs://" ++ id) = false := by
      simp only [isHttpUrl]
      rw [startsWithCI_append_split, startsWithCI_append_split]
      rw [show takesPrefixCI "ipfs://".data ("http://".data.take "ipfs://".data.length) = false from by decide]
      rw [show takesPrefixCI "ipfs://".data ("https://".data.take "ipfs://".data.length) = false from by decide]
      simp
    have hipfs : startsWithCI ("ipfs://" ++ id) "ipfs://" = true := by
      rw [startsWithCI_append_split]
      rw [show takesPrefixCI "ipfs://".data ("ipfs://".data.take "ipfs://".data.length) = true from by decide]
      rw [show ("ipfs://".data.drop "ipfs://".data.length) = ([] : List Char) from by decide]
      simp [takesPrefixCI]
    have hdrop : dropChars ("ipfs://" ++ id) 7 = id := dropChars_append "ipfs://" id
    simp [normalizeAfterTrim, hne, har, hhttp, hipfs, hdrop, h4, h5]
  have bPathSlash : normalizeAfterTrim ("/ipfs/" ++ id) = id := by
    have hne : ("/ipfs/" ++ id) ≠ "" := append_ne_empty_of_left _ _ (by decide)
    have har : startsWithCI ("/ipfs/" ++ id) "ar://" = false := by
      rw [startsWithCI_append_split]
      rw [show takesPrefixCI "/ipfs/".data ("ar://".data.take "/ipfs/".data.length) = false from by decide]
      simp
    have hhttp : isHttpUrl ("/ipfs/" ++ id) = false := by
      simp only [isHttpUrl]
      rw [startsWithCI_append_split, startsWithCI_append_split]
      rw [show takesPrefixCI "/ipfs/".data ("http://".data.take "/ipfs/".data.length) = false from by decide]
      rw [show takesPrefixCI "/ipfs/".data ("https://".data.take "/ipfs/".data.length) = false from by decide]
      simp
    have hipfs : startsWithCI ("/ipfs/" ++ id) "ipfs://" = false := by
      rw [startsWithCI_append_split]
      rw [show takesPrefixCI "/ipfs/".data ("ipfs://".data.take "/ipfs/".data.length) = false from by decide]
      simp
    have hslash : startsWithCI ("/ipfs/" ++ id) "/ipfs/" = true := by
      rw [startsWithCI_append_split]
      rw [show takesPrefixCI "/ipfs/".data ("/ipfs/".data.take "/ipfs/".data.length) = true from by decide]
      rw [show ("/ipfs/".data.drop "/ipfs/".data.length) = ([] : List Char) from by decide]
      simp [takesPrefixCI]
    have hdrop : dropChars ("/ipfs/" ++ id) 6 = id := dropChars_append "/ipfs/" id
    simp [normalizeAfterTrim, hne, har, hhttp, hipfs, hslash, hdrop, h5]
  have bPath : normalizeAfterTrim ("ipfs/" ++ id) = id := by
    have hne : ("ipfs/" ++ id) ≠ "" := append_ne_empty_of_left _ _ (by decide)
    have har : startsWithCI ("ipfs/" ++ id) "ar://" = false := by
      rw [startsWithCI_append_split]
      rw [show takesPrefixCI "ipfs/".data ("ar://".data.take "ipfs/".data.length) = false from by decide]
      simp
    have hhttp : isHttpUrl ("ipfs/" ++ id) = false := by
      simp only [isHttpUrl]
      rw [startsWithCI_append_split, startsWithCI_append_split]
      rw [show takesPrefixCI "ipfs/".data ("http://".data.take "ipfs/".data.length) = false from by decide]
      rw [show takesPrefixCI "ipfs/".data ("https://".data.take "ipfs/".data.length) = false from by decide]
      simp
    have hipfs : startsWithCI ("ipfs/" ++ id) "ipfs://" = false := by
      rw [startsWithCI_append_split]
      rw [show takesPrefixCI "ipfs/".data ("ipfs://".data.take "ipfs/".data.length) = false from by decide]
      simp
    have hslash : startsWithCI ("ipfs/" ++ id) "/ipfs/" = false := by
      rw [startsWithCI_append_split]
      rw [show takesPrefixCI "ipfs/".data ("/ipfs/".data.take "ipfs/".data.length) = false from by decide]
      simp
    have hpre : startsWithCI ("ipfs/" ++ id) "ipfs/" = true := by
      rw [startsWithCI_append_split]
      rw [show takesPrefixCI "ipfs/".data ("ipfs/".data.take "ipfs/".data.length) = true from by decide]
      rw [show ("ipfs/".data.drop "ipfs/".data.length) = ([] : List Char) from by decide]
      simp [takesPrefixCI]
    have hdrop : dropChars ("ipfs/" ++ id) 5 = id := dropChars_append "ipfs/" id
    simp [normalizeAfterTrim, hne, har, hhttp, hipfs, hslash, hpre, hdrop, h5]
  refine ⟨base, bIpfs, bPathSlash, bPath, ?_, fun _ => rfl, ?_, ?_⟩
  · rw [bIpfs]; exact h0
  · intro s h
    have hne : s ≠ "" := by
      intro he; subst he
      rw [show startsWithCI "" "ar://" = false from by decide] at h
      exact Bool.false_ne_true h
    simp [normalizeAfterTrim, hne, h]
  · intro s h hh
    have hne : s ≠ "" := by
      intro he; subst he
      rw [show isHttpUrl "" = false from by decide] at hh
      exact Bool.false_ne_true hh
    simp [normalizeAfterTrim, hne, h, hh]


/-- Witness for the amended C4 at the identifier `bafyabc`. -/
theorem normalize_single_prefix_no_scheme_witness :
    normalizeAfterTrim "ipfs://bafyabc" = "bafyabc" ∧
    hasSchemePrefix (normalizeAfterTrim ("ipfs://" ++ "bafyabc")) = false := by
  have h := normalize_single_prefix_no_scheme "bafyabc" (by decide) (by decide)
    (by decide) (by decide) (by decide) (by decide)
  refine ⟨?_, h.2.2.2.2.1⟩
  rw [show ("ipfs://bafyabc" : String) = "ipfs://" ++ "bafyabc" from by decide]
  exact h.2.1

end SIH
